import Mathlib

/-!
Verification of `src/notebooks/audio_generator.py` (HealthEquity audio
generator).  The script is a thin orchestration shell around an external
text-to-speech engine: it derives one `.wav` filename per input string,
asks the engine to synthesize and write the file, and aggregates the paths
of the successful items.

The shallow embedding below models:
* the TTS engine as an oracle `Synth : text → speaker → path → Bool`
  (`true` = `tts_to_file` succeeded and wrote the file, `false` = it raised);
* the filesystem and the logger as an explicit `Trace` record threaded
  through the loops (files present, log entries, synthesis calls made);
* Python truthiness of optional list arguments via `Option (List String)`
  (`none` = `None`; `some []` is falsy, like an empty Python list);
* machine-level details (actual audio bytes) are out of scope, exactly as
  the spec declares the synthesis capability a black box.
-/

namespace AudioGen

/-! ### Decimal formatting: the f-string `f"{i:03d}"` -/

/-- Embedding of the Python format `f"{i:03d}"`: the decimal representation
of `i` (core Lean's `Nat.repr`, which prints base-10 digits) left-padded
with `'0'` to width 3. -/
def pad3 (n : Nat) : String :=
  ⟨List.replicate (3 - (Nat.repr n).length) '0' ++ (Nat.repr n).data⟩

/-- Reads a digit string (most significant digit first) back as a number;
used only to prove `pad3` injective. -/
def decodeDigits (l : List Char) : Nat :=
  l.foldl (fun a c => a * 10 + (c.toNat - 48)) 0

theorem digitChar_toNat_sub : ∀ d, d < 10 → (Nat.digitChar d).toNat - 48 = d := by
  decide

theorem foldl_decode_toDigitsCore :
    ∀ (fuel : Nat), ∀ (n : Nat) (ds : List Char), n < 10 ^ fuel →
      List.foldl (fun a c => a * 10 + (c.toNat - 48)) 0 (Nat.toDigitsCore 10 fuel n ds)
        = List.foldl (fun a c => a * 10 + (c.toNat - 48)) n ds := by
  intro fuel
  induction fuel with
  | zero =>
    intro n ds h
    have hn : n = 0 := by omega
    subst hn
    simp [Nat.toDigitsCore]
  | succ fuel ih =>
    intro n ds h
    by_cases h0 : n / 10 = 0
    · have hn : n < 10 := by omega
      simp only [Nat.toDigitsCore, h0, if_true]
      simp only [List.foldl]
      have hd : (Nat.digitChar (n % 10)).toNat - 48 = n % 10 :=
        digitChar_toNat_sub _ (Nat.mod_lt _ (by omega))
      rw [hd]
      have : 0 * 10 + n % 10 = n := by omega
      rw [this]
    · have hlt : n / 10 < 10 ^ fuel := by
        have hp : 10 ^ (fuel + 1) = 10 ^ fuel * 10 := pow_succ 10 fuel
        rw [hp, Nat.mul_comm] at h
        exact Nat.div_lt_of_lt_mul h
      simp only [Nat.toDigitsCore, h0, if_false]
      rw [ih _ _ hlt]
      simp only [List.foldl]
      have hd : (Nat.digitChar (n % 10)).toNat - 48 = n % 10 :=
        digitChar_toNat_sub _ (Nat.mod_lt _ (by omega))
      rw [hd]
      have : n / 10 * 10 + n % 10 = n := by omega
      rw [this]

theorem foldl_decode_zeros (k : Nat) (a : List Char) :
    List.foldl (fun a c => a * 10 + (c.toNat - 48)) 0 (List.replicate k '0' ++ a)
      = List.foldl (fun a c => a * 10 + (c.toNat - 48)) 0 a := by
  induction k with
  | zero => rfl
  | succ k ih => simpa [List.replicate, List.foldl] using ih

/-- Decoding inverts `pad3`: the zero padding contributes nothing and the
digits of `Nat.repr` spell `n` back. -/
theorem decodeDigits_pad3 (n : Nat) : decodeDigits (pad3 n).data = n := by
  show List.foldl _ 0 (List.replicate _ '0' ++ (Nat.repr n).data) = n
  rw [foldl_decode_zeros]
  show List.foldl _ 0 (Nat.toDigitsCore 10 (n + 1) n []) = n
  have hb : n < 10 ^ (n + 1) := by
    calc n < 10 ^ n := Nat.lt_pow_self (by omega) n
    _ ≤ 10 ^ (n + 1) := Nat.pow_le_pow_right (by omega) (Nat.le_succ n)
  rw [foldl_decode_toDigitsCore (n + 1) n [] hb]
  rfl

theorem pad3_injective : Function.Injective pad3 := by
  intro a b h
  have := congrArg (fun s => decodeDigits s.data) h
  simpa [decodeDigits_pad3] using this

/-! ### Data model -/

/-- Embedding of the class state set up by `HealthEquityAudioGenerator.__init__`:
the output directory path, the loaded TTS model (opaque, identified by a
number), and the two built-in default question lists.  No method of the class
ever assigns to these fields. -/
structure HealthEquityAudioGenerator where
  output_dir : String
  tts : Nat
  spanish_questions : List String
  tagalog_questions : List String
deriving DecidableEq

/-- Synthesis oracle for `self.tts.tts_to_file(text=..., speaker=..., file_path=...)`:
`true` means the call synthesized and wrote the file, `false` means it raised. -/
abbrev Synth := String → String → String → Bool

/-- One synthesis attempt as issued to the TTS engine. -/
structure SynthCall where
  text : String
  speaker : String
  file_path : String
deriving DecidableEq

/-- Log lines the generate loops emit: `logger.info(f"... Generated {filename}")`
on success, `logger.error(f"... Failed to generate audio for {language} question {i}...")`
on failure. -/
inductive LogEntry where
  | generated (filename : String)
  | genFailed (language : String) (index : Nat)
deriving DecidableEq

/-- Observable side effects threaded through the loops: the set of file paths
present on disk, the log, and the synthesis calls issued. -/
structure Trace where
  files : List String
  log : List LogEntry
  calls : List SynthCall
deriving DecidableEq

/-- Writing a file at `path`: the path is added to the filesystem if new,
and silently overwritten (no change to the set of paths) if already present. -/
def fsWrite (files : List String) (path : String) : List String :=
  if path ∈ files then files else files ++ [path]

/-- Filename derived for the item at 1-based position `i`:
`f"{lang}_q{i:03d}.wav"`. -/
def audioFilename (lang : String) (i : Nat) : String :=
  lang ++ "_q" ++ pad3 i ++ ".wav"

/-- Full output path `self.output_dir / filename` (POSIX join). -/
def audioPath (dir lang : String) (i : Nat) : String :=
  dir ++ "/" ++ audioFilename lang i

theorem audioPath_injective {dir lang : String} {a b : Nat}
    (h : audioPath dir lang a = audioPath dir lang b) : a = b := by
  have hd := congrArg String.data h
  simp only [audioPath, audioFilename, String.data_append, List.append_assoc] at hd
  have h1 := List.append_cancel_left hd
  have h2 := List.append_cancel_left h1
  have h3 := List.append_cancel_left h2
  have h4 := List.append_cancel_left h3
  have h5 := List.append_cancel_right h4
  have := congrArg decodeDigits h5
  rwa [decodeDigits_pad3, decodeDigits_pad3] at this

/-! ### The generate loop

Embedding of the `for i, question in enumerate(questions, 1): try ... except`
bodies shared by `generate_spanish_audio` (with tag `"spanish"`, speaker
`"es"`, log label `"Spanish"`) and `generate_tagalog_audio` (tag `"tagalog"`,
speaker `"en"`, log label `"Tagalog"`).  On success the path is appended to
`generated_files`; on failure the item is skipped and the error logged. -/

def generateLoop (synth : Synth) (dir lang speaker label : String) :
    List String → Nat → Trace → List String × Trace
  | [], _, tr => ([], tr)
  | q :: qs, i, tr =>
    let filepath := audioPath dir lang i
    let tr1 : Trace := { tr with calls := tr.calls ++ [⟨q, speaker, filepath⟩] }
    if synth q speaker filepath then
      let tr2 : Trace := { tr1 with
        files := fsWrite tr1.files filepath
        log := tr1.log ++ [.generated (audioFilename lang i)] }
      let r := generateLoop synth dir lang speaker label qs (i + 1) tr2
      (filepath :: r.1, r.2)
    else
      let tr2 : Trace := { tr1 with log := tr1.log ++ [.genFailed label i] }
      generateLoop synth dir lang speaker label qs (i + 1) tr2

/-- Python truthiness of an optional list argument: `None` and `[]` are falsy. -/
def truthy : Option (List String) → Bool
  | none => false
  | some l => !l.isEmpty

/-- Texts an optional argument resolves to under
`questions = custom_questions if custom_questions else default`. -/
def orDefault (custom : Option (List String)) (default : List String) : List String :=
  match custom with
  | none => default
  | some qs => if qs.isEmpty then default else qs

/-- Embedding of `generate_spanish_audio`: resolve the question list (falling
back to the stored defaults when the argument is `None` or empty), then run
the loop with filename tag `"spanish"` and speaker `"es"`.  Returns the paths
of the successful items, the generator (unmodified by the source), and the
updated trace. -/
def generate_spanish_audio (synth : Synth) (g : HealthEquityAudioGenerator)
    (custom_questions : Option (List String)) (tr : Trace) :
    List String × HealthEquityAudioGenerator × Trace :=
  let questions := orDefault custom_questions g.spanish_questions
  let r := generateLoop synth g.output_dir "spanish" "es" "Spanish" questions 1 tr
  (r.1, g, r.2)

/-- Embedding of `generate_tagalog_audio`: same loop with tag `"tagalog"`,
and speaker `"en"` (the source uses the English speaker for Tagalog). -/
def generate_tagalog_audio (synth : Synth) (g : HealthEquityAudioGenerator)
    (custom_questions : Option (List String)) (tr : Trace) :
    List String × HealthEquityAudioGenerator × Trace :=
  let questions := orDefault custom_questions g.tagalog_questions
  let r := generateLoop synth g.output_dir "tagalog" "en" "Tagalog" questions 1 tr
  (r.1, g, r.2)

/-- Embedding of `generate_all_audio`: both languages with their default
lists; the result dictionary keyed `'spanish'`, `'tagalog'`. -/
def generate_all_audio (synth : Synth) (g : HealthEquityAudioGenerator) (tr : Trace) :
    List (String × List String) × HealthEquityAudioGenerator × Trace :=
  let r1 := generate_spanish_audio synth g none tr
  let r2 := generate_tagalog_audio synth r1.2.1 none r1.2.2
  ([("spanish", r1.1), ("tagalog", r2.1)], r2.2.1, r2.2.2)

/-- Embedding of `generate_custom_audio`: the result dictionary starts with
both keys mapped to `[]`; each language is generated only under
`if spanish_texts:` / `if tagalog_texts:` (Python truthiness). -/
def generate_custom_audio (synth : Synth) (g : HealthEquityAudioGenerator)
    (spanish_texts tagalog_texts : Option (List String)) (tr : Trace) :
    List (String × List String) × HealthEquityAudioGenerator × Trace :=
  let r1 :=
    if truthy spanish_texts then generate_spanish_audio synth g spanish_texts tr
    else ([], g, tr)
  let r2 :=
    if truthy tagalog_texts then generate_tagalog_audio synth r1.2.1 tagalog_texts r1.2.2
    else ([], r1.2.1, r1.2.2)
  ([("spanish", r1.1), ("tagalog", r2.1)], r2.2.1, r2.2.2)

/-! ### `load_texts_from_file` -/

/-- Whitespace characters stripped by Python's `str.strip()` (the ASCII ones;
the input files are one utterance per line of plain text). -/
def isPySpace (c : Char) : Bool :=
  c = ' ' || c = '\t' || c = '\n' || c = '\r' || c = '\x0b' || c = '\x0c'

/-- Embedding of `line.strip()`: drop whitespace from both ends. -/
def pyStrip (s : String) : String :=
  ⟨((s.data.dropWhile isPySpace).reverse.dropWhile isPySpace).reverse⟩

/-- Embedding of `content.split('\n')`: split at every newline, keeping empty
pieces, one piece after a trailing newline included (`"".split('\n') == [""]`). -/
def splitNewlines : List Char → List Char → List String
  | [], acc => [⟨acc.reverse⟩]
  | c :: cs, acc =>
    if c = '\n' then (⟨acc.reverse⟩ : String) :: splitNewlines cs []
    else splitNewlines cs (c :: acc)

/-- Embedding of `load_texts_from_file`: the whole body runs under
`try ... except`, so a failed read (`.error`) is logged and yields `[]`;
a successful read yields `[line.strip() for line in content.split('\n') if line.strip()]`. -/
def load_texts_from_file : Except String String → List String
  | .error _ => []
  | .ok content =>
    (splitNewlines content.data []).filterMap fun line =>
      let t := pyStrip line
      if t = "" then none else some t

/-! ### Initialization and the CLI driver -/

/-- Default Spanish healthcare questions hard-coded in `__init__`
(`self.spanish_questions`), copied character for character. -/
def defaultSpanishQuestions : List String :=
  ["¬øCu√°les son mis valores de presi√≥n arterial hoy?",
   "¬øCu√°les fueron los valores de la √∫ltima semana?",
   "¬øCu√°l es la tendencia de mis valores?",
   "¬øCu√°les son los rangos normales para una persona como yo?",
   "Por favor tome su medicamento seg√∫n lo recetado por su m√©dico.",
   "Su cita est√° programada para ma√±ana a las 2 PM.",
   "Por favor ayune durante 8 horas antes de su an√°lisis de sangre.",
   "Su seguro cubre este procedimiento completamente.",
   "Por favor traiga su tarjeta de seguro y identificaci√≥n con foto.",
   "El m√©dico lo ver√° en la habitaci√≥n 205."]

/-- Default Tagalog healthcare questions hard-coded in `__init__`
(`self.tagalog_questions`). -/
def defaultTagalogQuestions : List String :=
  ["Ano ang aking mga blood pressure values ngayon?",
   "Ano ang mga values noong nakaraang linggo?",
   "Ano ang trend ng aking mga values?",
   "Ano ang normal ranges para sa isang taong katulad ko?",
   "Mangyaring inumin ang inyong gamot ayon sa inireseta ng inyong doktor.",
   "Ang inyong appointment ay nakatakda bukas ng 2 PM.",
   "Mangyaring mag-ayuno ng 8 oras bago ang inyong blood test.",
   "Ang inyong insurance ay sumasaklaw sa procedure na ito nang lubusan.",
   "Mangyaring dalhin ang inyong insurance card at photo ID.",
   "Ang doktor ay makikita kayo sa room 205."]

/-- Failure modes of `__init__`: `self.output_dir.mkdir(exist_ok=True)`
raising, or the TTS model failing to load (re-raised after logging). -/
inductive InitError where
  | mkdirFailed
  | ttsLoadFailed
deriving DecidableEq

/-- Environment the run starts in: whether a missing output directory can be
created (permissions, parent), whether the TTS model loads, and which
directories already exist. -/
structure Env where
  canCreateDir : Bool
  ttsOk : Bool
  dirs : List String
deriving DecidableEq

/-- Embedding of `Path(output_dir).mkdir(exist_ok=True)`: succeeds without
change when the directory exists (`exist_ok`), creates it when the
environment allows, and raises otherwise. -/
def mkdirExistOk (env : Env) (d : String) : Except InitError (List String) :=
  if d ∈ env.dirs then .ok env.dirs
  else if env.canCreateDir then .ok (env.dirs ++ [d])
  else .error .mkdirFailed

/-- Embedding of `HealthEquityAudioGenerator.__init__`: make the output
directory, load the TTS model (an error is logged and re-raised), then store
the default question lists.  Returns the constructed object and the
directories existing afterwards. -/
def init_generator (env : Env) (output_dir : String) :
    Except InitError (HealthEquityAudioGenerator × List String) :=
  match mkdirExistOk env output_dir with
  | .error e => .error e
  | .ok dirs1 =>
    if env.ttsOk then
      .ok (⟨output_dir, 0, defaultSpanishQuestions, defaultTagalogQuestions⟩, dirs1)
    else .error .ttsLoadFailed

/-- Generation dispatch of `main` (after the argument wiring): with any
truthy custom texts it calls `generate_custom_audio`, passing each language's
texts only when that language passed the `--languages` filter; otherwise it
builds the result dictionary from the default-question generators of the
selected languages. -/
def main_generate (synth : Synth) (g : HealthEquityAudioGenerator)
    (languages : List String) (spanish_texts tagalog_texts : Option (List String))
    (tr : Trace) :
    List (String × List String) × HealthEquityAudioGenerator × Trace :=
  if truthy spanish_texts || truthy tagalog_texts then
    generate_custom_audio synth g
      (if "spanish" ∈ languages then spanish_texts else none)
      (if "tagalog" ∈ languages then tagalog_texts else none) tr
  else
    let r1 :=
      if "spanish" ∈ languages then
        let s := generate_spanish_audio synth g none tr
        ([("spanish", s.1)], s.2.1, s.2.2)
      else ([], g, tr)
    let r2 :=
      if "tagalog" ∈ languages then
        let t := generate_tagalog_audio synth r1.2.1 none r1.2.2
        ([("tagalog", t.1)], t.2.1, t.2.2)
      else ([], r1.2.1, r1.2.2)
    (r1.1 ++ r2.1, r2.2.1, r2.2.2)

/-- Exit behaviour of `main`: the whole body runs in one `try`; if
initialization raises, the error is logged and `sys.exit(1)` runs, otherwise
generation proceeds (per-item failures are swallowed inside the loops) and the
process finishes with code 0.  Returns the exit code and the final trace. -/
def main_run (env : Env) (synth : Synth) (output : String)
    (languages : List String) (spanish_texts tagalog_texts : Option (List String))
    (tr : Trace) : Nat × Trace :=
  match init_generator env output with
  | .error _ => (1, tr)
  | .ok (g, _) =>
    let r := main_generate synth g languages spanish_texts tagalog_texts tr
    (0, r.2.2)

/-! ### Characterizing the generate loop -/

/-- Paths of the items the oracle synthesizes successfully, in input order. -/
def successPaths (synth : Synth) (dir lang speaker : String) :
    List String → Nat → List String
  | [], _ => []
  | q :: qs, i =>
    if synth q speaker (audioPath dir lang i) then
      audioPath dir lang i :: successPaths synth dir lang speaker qs (i + 1)
    else successPaths synth dir lang speaker qs (i + 1)

/-- Paths the loop derives for `n` items starting at position `i`: one per
position, independent of the texts and of the oracle. -/
def attemptedPaths (dir lang : String) : Nat → Nat → List String
  | _, 0 => []
  | i, n + 1 => audioPath dir lang i :: attemptedPaths dir lang (i + 1) n

/-- Sequence of file writes. -/
def writeAll (files : List String) : List String → List String
  | [] => files
  | p :: ps => writeAll (fsWrite files p) ps

/-- Log lines one loop run appends. -/
def loopLog (synth : Synth) (dir lang speaker label : String) :
    List String → Nat → List LogEntry
  | [], _ => []
  | q :: qs, i =>
    if synth q speaker (audioPath dir lang i) then
      .generated (audioFilename lang i) :: loopLog synth dir lang speaker label qs (i + 1)
    else .genFailed label i :: loopLog synth dir lang speaker label qs (i + 1)

/-- Synthesis calls one loop run issues: one per item, success or not. -/
def loopCalls (dir lang speaker : String) : List String → Nat → List SynthCall
  | [], _ => []
  | q :: qs, i => ⟨q, speaker, audioPath dir lang i⟩ :: loopCalls dir lang speaker qs (i + 1)

theorem generateLoop_fst (synth : Synth) (dir lang speaker label : String) :
    ∀ (qs : List String) (i : Nat) (tr : Trace),
      (generateLoop synth dir lang speaker label qs i tr).1
        = successPaths synth dir lang speaker qs i := by
  intro qs
  induction qs with
  | nil => intro i tr; rfl
  | cons q qs ih =>
    intro i tr
    simp only [generateLoop, successPaths]
    by_cases hs : synth q speaker (audioPath dir lang i) <;> simp [hs, ih]

theorem generateLoop_files (synth : Synth) (dir lang speaker label : String) :
    ∀ (qs : List String) (i : Nat) (tr : Trace),
      (generateLoop synth dir lang speaker label qs i tr).2.files
        = writeAll tr.files (successPaths synth dir lang speaker qs i) := by
  intro qs
  induction qs with
  | nil => intro i tr; rfl
  | cons q qs ih =>
    intro i tr
    simp only [generateLoop, successPaths]
    by_cases hs : synth q speaker (audioPath dir lang i) <;> simp [hs, ih, writeAll]

theorem generateLoop_log (synth : Synth) (dir lang speaker label : String) :
    ∀ (qs : List String) (i : Nat) (tr : Trace),
      (generateLoop synth dir lang speaker label qs i tr).2.log
        = tr.log ++ loopLog synth dir lang speaker label qs i := by
  intro qs
  induction qs with
  | nil => intro i tr; simp [generateLoop, loopLog]
  | cons q qs ih =>
    intro i tr
    simp only [generateLoop, loopLog]
    by_cases hs : synth q speaker (audioPath dir lang i) <;> simp [hs, ih]

theorem generateLoop_calls (synth : Synth) (dir lang speaker label : String) :
    ∀ (qs : List String) (i : Nat) (tr : Trace),
      (generateLoop synth dir lang speaker label qs i tr).2.calls
        = tr.calls ++ loopCalls dir lang speaker qs i := by
  intro qs
  induction qs with
  | nil => intro i tr; simp [generateLoop, loopCalls]
  | cons q qs ih =>
    intro i tr
    simp only [generateLoop, loopCalls]
    by_cases hs : synth q speaker (audioPath dir lang i) <;> simp [hs, ih]

theorem successPaths_sublist (synth : Synth) (dir lang speaker : String) :
    ∀ (qs : List String) (i : Nat),
      (successPaths synth dir lang speaker qs i).Sublist
        (attemptedPaths dir lang i qs.length) := by
  intro qs
  induction qs with
  | nil => intro i; simp [successPaths, attemptedPaths]
  | cons q qs ih =>
    intro i
    simp only [successPaths, attemptedPaths, List.length_cons]
    by_cases hs : synth q speaker (audioPath dir lang i)
    · rw [if_pos hs]
      exact (ih (i + 1)).cons₂ _
    · rw [if_neg hs]
      exact (ih (i + 1)).cons _

theorem attemptedPaths_length (dir lang : String) :
    ∀ (n i : Nat), (attemptedPaths dir lang i n).length = n := by
  intro n
  induction n with
  | zero => intro i; rfl
  | succ n ih => intro i; simp [attemptedPaths, ih]

theorem mem_attemptedPaths {dir lang : String} :
    ∀ {n i : Nat} {p : String},
      p ∈ attemptedPaths dir lang i n ↔ ∃ j, j < n ∧ p = audioPath dir lang (i + j) := by
  intro n
  induction n with
  | zero => intro i p; simp [attemptedPaths]
  | succ n ih =>
    intro i p
    simp only [attemptedPaths, List.mem_cons, ih]
    constructor
    · rintro (rfl | ⟨j, hj, rfl⟩)
      · exact ⟨0, by omega, by simp⟩
      · exact ⟨j + 1, by omega, congrArg (audioPath dir lang) (by omega)⟩
    · rintro ⟨j, hj, rfl⟩
      cases j with
      | zero => left; simp
      | succ j => right; exact ⟨j, by omega, congrArg (audioPath dir lang) (by omega)⟩

theorem attemptedPaths_nodup (dir lang : String) :
    ∀ (n i : Nat), (attemptedPaths dir lang i n).Nodup := by
  intro n
  induction n with
  | zero => intro i; simp [attemptedPaths]
  | succ n ih =>
    intro i
    simp only [attemptedPaths, List.nodup_cons]
    refine ⟨fun hmem => ?_, ih (i + 1)⟩
    obtain ⟨j, _, hj⟩ := mem_attemptedPaths.mp hmem
    have := audioPath_injective hj
    omega

theorem mem_fsWrite {files : List String} {q p : String} :
    p ∈ fsWrite files q ↔ p ∈ files ∨ p = q := by
  unfold fsWrite
  by_cases hq : q ∈ files
  · simp only [hq, if_true]
    constructor
    · exact Or.inl
    · rintro (h | rfl) <;> assumption
  · simp [hq]

theorem mem_writeAll :
    ∀ {ps : List String} {files : List String} {p : String},
      p ∈ writeAll files ps ↔ p ∈ files ∨ p ∈ ps := by
  intro ps
  induction ps with
  | nil => intro files p; simp [writeAll]
  | cons q ps ih =>
    intro files p
    simp only [writeAll, ih, mem_fsWrite, List.mem_cons]
    tauto

theorem writeAll_eq_of_subset :
    ∀ {ps : List String} {files : List String},
      (∀ p ∈ ps, p ∈ files) → writeAll files ps = files := by
  intro ps
  induction ps with
  | nil => intro files _; rfl
  | cons q ps ih =>
    intro files h
    have hq : q ∈ files := h q (by simp)
    simp only [writeAll, fsWrite, hq, if_true]
    exact ih fun p hp => h p (by simp [hp])

theorem successPaths_all (synth : Synth) (dir lang speaker : String) :
    ∀ (qs : List String) (i : Nat),
      (∀ j, j < qs.length →
        synth (qs.getD j "") speaker (audioPath dir lang (i + j)) = true) →
      successPaths synth dir lang speaker qs i = attemptedPaths dir lang i qs.length := by
  intro qs
  induction qs with
  | nil => intro i _; rfl
  | cons q qs ih =>
    intro i h
    have h0 := h 0 (by simp)
    simp only [List.getD_cons_zero, Nat.add_zero] at h0
    simp only [successPaths, attemptedPaths, List.length_cons, h0, if_true]
    congr 1
    refine ih (i + 1) fun j hj => ?_
    have := h (j + 1) (by simpa using hj)
    simp only [List.getD_cons_succ] at this
    rw [show i + 1 + j = i + (j + 1) from by omega]
    exact this

theorem successPaths_except (synth : Synth) (dir lang speaker : String) :
    ∀ (qs : List String) (i k : Nat), k < qs.length →
      (∀ j, j < qs.length →
        synth (qs.getD j "") speaker (audioPath dir lang (i + j)) = decide (j ≠ k)) →
      successPaths synth dir lang speaker qs i
        = attemptedPaths dir lang i k
          ++ attemptedPaths dir lang (i + k + 1) (qs.length - (k + 1)) := by
  intro qs
  induction qs with
  | nil => intro i k hk; simp at hk
  | cons q qs ih =>
    intro i k hk h
    cases k with
    | zero =>
      have h0 := h 0 (by simp)
      simp only [List.getD_cons_zero, Nat.add_zero, decide_not] at h0
      have h0' : synth q speaker (audioPath dir lang i) = false := by
        simpa using h0
      simp only [successPaths, h0', if_false, attemptedPaths, List.nil_append,
        List.length_cons, Nat.add_sub_cancel, Nat.add_zero]
      refine successPaths_all synth dir lang speaker qs (i + 1) fun j hj => ?_
      have := h (j + 1) (by simpa using hj)
      simp only [List.getD_cons_succ] at this
      rw [show i + 1 + j = i + (j + 1) from by omega]
      rw [this]
      simp
    | succ k =>
      have h0 := h 0 (by simp)
      simp only [List.getD_cons_zero, Nat.add_zero] at h0
      have h0' : synth q speaker (audioPath dir lang i) = true := by
        rw [h0]; simp
      have hk' : k < qs.length := by simpa using hk
      have hrec := ih (i + 1) k hk' fun j hj => ?_
      · simp only [successPaths, h0', if_true, attemptedPaths, List.length_cons,
          List.cons_append]
        rw [hrec]
        rw [show i + 1 + k + 1 = i + (k + 1) + 1 from by omega]
        rw [show qs.length - (k + 1) = qs.length + 1 - (k + 1 + 1) from by omega]
      · have := h (j + 1) (by simpa using hj)
        simp only [List.getD_cons_succ] at this
        rw [show i + 1 + j = i + (j + 1) from by omega, this]
        exact decide_eq_decide.mpr (by omega)

theorem genFailed_mem_loopLog (synth : Synth) (dir lang speaker label : String) :
    ∀ (qs : List String) (i j : Nat), j < qs.length →
      synth (qs.getD j "") speaker (audioPath dir lang (i + j)) = false →
      LogEntry.genFailed label (i + j)
        ∈ loopLog synth dir lang speaker label qs i := by
  intro qs
  induction qs with
  | nil => intro i j hj; simp at hj
  | cons q qs ih =>
    intro i j hj hf
    cases j with
    | zero =>
      simp only [List.getD_cons_zero, Nat.add_zero] at hf
      simp [loopLog, hf]
    | succ j =>
      have hj' : j < qs.length := by simpa using hj
      simp only [List.getD_cons_succ] at hf
      have hf' : synth (qs.getD j "") speaker (audioPath dir lang (i + 1 + j)) = false := by
        rw [show i + 1 + j = i + (j + 1) from by omega]
        exact hf
      have hmem := ih (i + 1) j hj' hf'
      rw [show i + (j + 1) = i + 1 + j from by omega]
      unfold loopLog
      by_cases hs : synth q speaker (audioPath dir lang i) <;> simp [hs, hmem]

theorem mem_loopCalls {dir lang speaker : String} :
    ∀ {qs : List String} {i : Nat} {c : SynthCall},
      c ∈ loopCalls dir lang speaker qs i →
      ∃ j, j < qs.length ∧ c = ⟨qs.getD j "", speaker, audioPath dir lang (i + j)⟩ := by
  intro qs
  induction qs with
  | nil => intro i c h; simp [loopCalls] at h
  | cons q qs ih =>
    intro i c h
    simp only [loopCalls, List.mem_cons] at h
    rcases h with rfl | h
    · exact ⟨0, by simp, by simp⟩
    · obtain ⟨j, hj, rfl⟩ := ih h
      exact ⟨j + 1, by simpa using hj,
        by simp [List.getD_cons_succ, show i + 1 + j = i + (j + 1) from by omega]⟩

theorem orDefault_of_ne_nil {qs d : List String} (h : qs ≠ []) :
    orDefault (some qs) d = qs := by
  cases qs with
  | nil => exact absurd rfl h
  | cons q l => rfl

theorem generate_spanish_fst (synth : Synth) (g : HealthEquityAudioGenerator)
    (tr : Trace) {qs : List String} (h : qs ≠ []) :
    (generate_spanish_audio synth g (some qs) tr).1
      = successPaths synth g.output_dir "spanish" "es" qs 1 := by
  unfold generate_spanish_audio
  rw [orDefault_of_ne_nil h]
  exact generateLoop_fst ..

theorem generate_tagalog_fst (synth : Synth) (g : HealthEquityAudioGenerator)
    (tr : Trace) {qs : List String} (h : qs ≠ []) :
    (generate_tagalog_audio synth g (some qs) tr).1
      = successPaths synth g.output_dir "tagalog" "en" qs 1 := by
  unfold generate_tagalog_audio
  rw [orDefault_of_ne_nil h]
  exact generateLoop_fst ..

/-! ### The claims -/

/-- C1: for every non-empty caller-supplied list of `N` texts both generate
calls return at most `N` output paths; the returned paths are an in-order
selection from the position-indexed paths `{lang}_q{i:03}.wav` (`i` the item's
1-based position), those position-indexed paths are pairwise distinct, and
hence so are the returned paths. -/
theorem c1_generate_unique_indexed_paths (synth : Synth)
    (g : HealthEquityAudioGenerator) (tr : Trace) (qs : List String)
    (h : qs ≠ []) :
    ((generate_spanish_audio synth g (some qs) tr).1.length ≤ qs.length
      ∧ (generate_spanish_audio synth g (some qs) tr).1.Sublist
          (attemptedPaths g.output_dir "spanish" 1 qs.length)
      ∧ (attemptedPaths g.output_dir "spanish" 1 qs.length).Nodup
      ∧ (generate_spanish_audio synth g (some qs) tr).1.Nodup)
    ∧ ((generate_tagalog_audio synth g (some qs) tr).1.length ≤ qs.length
      ∧ (generate_tagalog_audio synth g (some qs) tr).1.Sublist
          (attemptedPaths g.output_dir "tagalog" 1 qs.length)
      ∧ (attemptedPaths g.output_dir "tagalog" 1 qs.length).Nodup
      ∧ (generate_tagalog_audio synth g (some qs) tr).1.Nodup) := by
  rw [generate_spanish_fst synth g tr h, generate_tagalog_fst synth g tr h]
  have hs := successPaths_sublist synth g.output_dir "spanish" "es" qs 1
  have ht := successPaths_sublist synth g.output_dir "tagalog" "en" qs 1
  have hns := attemptedPaths_nodup g.output_dir "spanish" qs.length 1
  have hnt := attemptedPaths_nodup g.output_dir "tagalog" qs.length 1
  refine ⟨⟨?_, hs, hns, hns.sublist hs⟩, ⟨?_, ht, hnt, hnt.sublist ht⟩⟩
  · have := hs.length_le
    rwa [attemptedPaths_length] at this
  · have := ht.length_le
    rwa [attemptedPaths_length] at this

/-- C1 witness: a concrete one-item list with an always-succeeding oracle. -/
theorem c1_witness :
    ((["hola"] : List String) ≠ [])
    ∧ (generate_spanish_audio (fun _ _ _ => true) ⟨"out", 0, [], []⟩
        (some ["hola"]) ⟨[], [], []⟩).1.length ≤ 1 :=
  ⟨by decide,
   (c1_generate_unique_indexed_paths (fun _ _ _ => true) ⟨"out", 0, [], []⟩
      ⟨[], [], []⟩ ["hola"] (by decide)).1.1⟩

/-- C10: no generate operation mutates the orchestrator: the generator record
(output directory, TTS handle, both default question lists) returned by each
operation is the one passed in. -/
theorem c10_generate_leaves_state_unchanged (synth : Synth)
    (g : HealthEquityAudioGenerator) (c sp tg : Option (List String)) (tr : Trace) :
    (generate_spanish_audio synth g c tr).2.1 = g
    ∧ (generate_tagalog_audio synth g c tr).2.1 = g
    ∧ (generate_all_audio synth g tr).2.1 = g
    ∧ (generate_custom_audio synth g sp tg tr).2.1 = g := by
  refine ⟨rfl, rfl, rfl, ?_⟩
  unfold generate_custom_audio
  by_cases h1 : truthy sp <;> by_cases h2 : truthy tg <;>
    simp [h1, h2, generate_spanish_audio, generate_tagalog_audio]

/-- C6: a second generate run with the same input list and output directory
derives exactly the same paths and leaves the set of files on disk unchanged
(the same filenames are overwritten; nothing accumulates). -/
theorem c6_generate_idempotent_on_files (synth : Synth)
    (g : HealthEquityAudioGenerator) (c : Option (List String)) (tr : Trace) :
    ((generate_spanish_audio synth
        (generate_spanish_audio synth g c tr).2.1 c
        (generate_spanish_audio synth g c tr).2.2).1
      = (generate_spanish_audio synth g c tr).1
    ∧ (generate_spanish_audio synth
        (generate_spanish_audio synth g c tr).2.1 c
        (generate_spanish_audio synth g c tr).2.2).2.2.files
      = (generate_spanish_audio synth g c tr).2.2.files)
    ∧ ((generate_tagalog_audio synth
        (generate_tagalog_audio synth g c tr).2.1 c
        (generate_tagalog_audio synth g c tr).2.2).1
      = (generate_tagalog_audio synth g c tr).1
    ∧ (generate_tagalog_audio synth
        (generate_tagalog_audio synth g c tr).2.1 c
        (generate_tagalog_audio synth g c tr).2.2).2.2.files
      = (generate_tagalog_audio synth g c tr).2.2.files) := by
  have key : ∀ (dir lang speaker : String) (qs : List String) (t : Trace),
      writeAll (writeAll t.files (successPaths synth dir lang speaker qs 1))
          (successPaths synth dir lang speaker qs 1)
        = writeAll t.files (successPaths synth dir lang speaker qs 1) :=
    fun dir lang speaker qs t =>
      writeAll_eq_of_subset fun p hp => mem_writeAll.mpr (Or.inr hp)
  have e1 : ∀ t : Trace, (generate_spanish_audio synth g c t).1
      = successPaths synth g.output_dir "spanish" "es" (orDefault c g.spanish_questions) 1 :=
    fun t => generateLoop_fst ..
  have e2 : ∀ t : Trace, (generate_spanish_audio synth g c t).2.2.files
      = writeAll t.files
          (successPaths synth g.output_dir "spanish" "es" (orDefault c g.spanish_questions) 1) :=
    fun t => generateLoop_files ..
  have f1 : ∀ t : Trace, (generate_tagalog_audio synth g c t).1
      = successPaths synth g.output_dir "tagalog" "en" (orDefault c g.tagalog_questions) 1 :=
    fun t => generateLoop_fst ..
  have f2 : ∀ t : Trace, (generate_tagalog_audio synth g c t).2.2.files
      = writeAll t.files
          (successPaths synth g.output_dir "tagalog" "en" (orDefault c g.tagalog_questions) 1) :=
    fun t => generateLoop_files ..
  constructor
  · constructor
    · show (generate_spanish_audio synth g c (generate_spanish_audio synth g c tr).2.2).1
        = (generate_spanish_audio synth g c tr).1
      rw [e1, e1]
    · show (generate_spanish_audio synth g c
          (generate_spanish_audio synth g c tr).2.2).2.2.files
        = (generate_spanish_audio synth g c tr).2.2.files
      rw [e2, e2]
      exact key ..
  · constructor
    · show (generate_tagalog_audio synth g c (generate_tagalog_audio synth g c tr).2.2).1
        = (generate_tagalog_audio synth g c tr).1
      rw [f1, f1]
    · show (generate_tagalog_audio synth g c
          (generate_tagalog_audio synth g c tr).2.2).2.2.files
        = (generate_tagalog_audio synth g c tr).2.2.files
      rw [f2, f2]
      exact key ..

/-- C8: the empty caller-supplied list is falsy in Python, so
`generate_spanish_audio([])` / `generate_tagalog_audio([])` behave exactly
like the no-argument calls: they fall back to the built-in default question
lists (10 items each) and, with a successful oracle, synthesize all 10. -/
theorem c8_empty_list_falls_back_to_defaults (synth : Synth)
    (g : HealthEquityAudioGenerator) (tr : Trace) :
    generate_spanish_audio synth g (some []) tr
        = generate_spanish_audio synth g none tr
    ∧ generate_tagalog_audio synth g (some []) tr
        = generate_tagalog_audio synth g none tr
    ∧ defaultSpanishQuestions.length = 10
    ∧ defaultTagalogQuestions.length = 10
    ∧ (g.spanish_questions = defaultSpanishQuestions →
        (∀ t s p, synth t s p = true) →
        (generate_spanish_audio synth g (some []) tr).1.length = 10)
    ∧ (g.tagalog_questions = defaultTagalogQuestions →
        (∀ t s p, synth t s p = true) →
        (generate_tagalog_audio synth g (some []) tr).1.length = 10) := by
  refine ⟨rfl, rfl, rfl, rfl, fun hq hall => ?_, fun hq hall => ?_⟩
  · unfold generate_spanish_audio
    have : orDefault (some []) g.spanish_questions = g.spanish_questions := rfl
    rw [this, generateLoop_fst,
      successPaths_all synth g.output_dir "spanish" "es" _ 1
        (fun j hj => hall _ _ _),
      attemptedPaths_length, hq]
    rfl
  · unfold generate_tagalog_audio
    have : orDefault (some []) g.tagalog_questions = g.tagalog_questions := rfl
    rw [this, generateLoop_fst,
      successPaths_all synth g.output_dir "tagalog" "en" _ 1
        (fun j hj => hall _ _ _),
      attemptedPaths_length, hq]
    rfl

/-- C8 witness: with the defaults stored and an always-succeeding oracle, the
empty-list call produces all 10 default items. -/
theorem c8_witness :
    (generate_spanish_audio (fun _ _ _ => true)
        ⟨"out", 0, defaultSpanishQuestions, defaultTagalogQuestions⟩
        (some []) ⟨[], [], []⟩).1.length = 10 :=
  (c8_empty_list_falls_back_to_defaults (fun _ _ _ => true)
      ⟨"out", 0, defaultSpanishQuestions, defaultTagalogQuestions⟩
      ⟨[], [], []⟩).2.2.2.2.1 rfl (fun _ _ _ => rfl)

theorem filterMap_strip_eq (l : List String) :
    (l.filterMap fun line =>
        let t := pyStrip line
        if t = "" then none else some t)
      = (l.map pyStrip).filter fun t => !(t == "") := by
  induction l with
  | nil => rfl
  | cons a l ih =>
    by_cases h : pyStrip a = "" <;>
      simp [List.filterMap_cons, List.filter_cons, h, ih]

/-- C5: on a successful read, `load_texts_from_file` returns the file's
lines in order, each stripped of surrounding whitespace, with the blank
lines dropped; on the concrete content `"a\n\nb\n  \nc\n"` it returns
exactly `["a", "b", "c"]`. -/
theorem c5_load_texts_strips_and_drops_blanks :
    (∀ content : String,
      load_texts_from_file (.ok content)
        = ((splitNewlines content.data []).map pyStrip).filter fun t => !(t == ""))
    ∧ load_texts_from_file (.ok "a\n\nb\n  \nc\n") = ["a", "b", "c"] := by
  refine ⟨fun content => ?_, by decide⟩
  exact filterMap_strip_eq _

/-- C9: `load_texts_from_file` is total; a failed read (any exception: missing
file, permissions, bad encoding) yields `[]`, the same value a file of only
blank lines yields. -/
theorem c9_load_texts_error_is_empty (e : String) (content : String)
    (hblank : ∀ line ∈ splitNewlines content.data [], pyStrip line = "") :
    load_texts_from_file (.error e) = []
    ∧ load_texts_from_file (.ok content) = load_texts_from_file (.error e) := by
  refine ⟨rfl, ?_⟩
  show (splitNewlines content.data []).filterMap _ = []
  rw [List.filterMap_eq_nil_iff]
  intro line hline
  simp [hblank line hline]

/-- C9 witness: a concrete error and a concrete blank-only file. -/
theorem c9_witness :
    (∀ line ∈ splitNewlines ("\n  \n" : String).data [], pyStrip line = "")
    ∧ load_texts_from_file (.ok "\n  \n") = load_texts_from_file (.error "boom") :=
  ⟨by decide, (c9_load_texts_error_is_empty "boom" "\n  \n" (by decide)).2⟩

/-- C2: if synthesis fails for exactly the item at 0-based position `k` of the
input list, the call still returns the paths of every other item in input
order (the positions before `k`, then those after), the failed item's path is
absent, and a failure log line carrying the language label and the item's
1-based index is emitted; the batch never aborts. -/
theorem c2_single_failure_is_isolated (synth : Synth)
    (g : HealthEquityAudioGenerator) (tr : Trace) (qs : List String) (k : Nat)
    (hk : k < qs.length)
    (hsynth : ∀ j, j < qs.length →
      synth (qs.getD j "") "es" (audioPath g.output_dir "spanish" (1 + j))
        = decide (j ≠ k)) :
    (generate_spanish_audio synth g (some qs) tr).1
        = attemptedPaths g.output_dir "spanish" 1 k
          ++ attemptedPaths g.output_dir "spanish" (k + 2) (qs.length - (k + 1))
    ∧ audioPath g.output_dir "spanish" (k + 1)
        ∉ (generate_spanish_audio synth g (some qs) tr).1
    ∧ LogEntry.genFailed "Spanish" (k + 1)
        ∈ (generate_spanish_audio synth g (some qs) tr).2.2.log := by
  have hne : qs ≠ [] := by
    intro hnil
    rw [hnil] at hk
    simp at hk
  have hfst := generate_spanish_fst synth g tr hne
  have hexc := successPaths_except synth g.output_dir "spanish" "es" qs 1 k hk hsynth
  have heq : (generate_spanish_audio synth g (some qs) tr).1
      = attemptedPaths g.output_dir "spanish" 1 k
        ++ attemptedPaths g.output_dir "spanish" (k + 2) (qs.length - (k + 1)) := by
    rw [hfst, hexc, show 1 + k + 1 = k + 2 from by omega]
  refine ⟨heq, ?_, ?_⟩
  · rw [heq]
    intro hmem
    rcases List.mem_append.mp hmem with hmem | hmem
    · obtain ⟨j, hj, hp⟩ := mem_attemptedPaths.mp hmem
      have := audioPath_injective hp
      omega
    · obtain ⟨j, hj, hp⟩ := mem_attemptedPaths.mp hmem
      have := audioPath_injective hp
      omega
  · have hf : synth (qs.getD k "") "es" (audioPath g.output_dir "spanish" (1 + k))
        = false := by
      rw [hsynth k hk]
      simp
    have hmem := genFailed_mem_loopLog synth g.output_dir "spanish" "es" "Spanish"
      qs 1 k hk hf
    unfold generate_spanish_audio
    rw [orDefault_of_ne_nil hne]
    show _ ∈ (generateLoop synth g.output_dir "spanish" "es" "Spanish" qs 1 tr).2.log
    rw [generateLoop_log]
    rw [show k + 1 = 1 + k from by omega]
    exact List.mem_append.mpr (Or.inr hmem)

/-- C2 witness: five items, the oracle failing exactly on the third file. -/
theorem c2_witness :
    (2 < (["a", "b", "c", "d", "e"] : List String).length)
    ∧ (∀ j, j < (["a", "b", "c", "d", "e"] : List String).length →
        (fun (_ _ p : String) => !(p == "out/spanish_q003.wav"))
          ((["a", "b", "c", "d", "e"] : List String).getD j "") "es"
          (audioPath "out" "spanish" (1 + j)) = decide (j ≠ 2))
    ∧ (generate_spanish_audio (fun _ _ p => !(p == "out/spanish_q003.wav"))
        ⟨"out", 0, [], []⟩ (some ["a", "b", "c", "d", "e"]) ⟨[], [], []⟩).1
        = attemptedPaths "out" "spanish" 1 2 ++ attemptedPaths "out" "spanish" 4 2 :=
  ⟨by decide, by decide,
   (c2_single_failure_is_isolated (fun _ _ p => !(p == "out/spanish_q003.wav"))
      ⟨"out", 0, [], []⟩ ⟨[], [], []⟩ ["a", "b", "c", "d", "e"] 2
      (by decide) (by decide)).1⟩

theorem generate_spanish_snd_fst (synth : Synth) (g : HealthEquityAudioGenerator)
    (c : Option (List String)) (tr : Trace) :
    (generate_spanish_audio synth g c tr).2.1 = g := rfl

theorem generate_tagalog_snd_fst (synth : Synth) (g : HealthEquityAudioGenerator)
    (c : Option (List String)) (tr : Trace) :
    (generate_tagalog_audio synth g c tr).2.1 = g := rfl

/-- C3: in `generate_custom_audio` a language whose text list is not supplied
(`None`) is skipped outright: its entry in the returned mapping is the empty
sequence, and the whole call collapses to the other language's run alone (in
particular no default texts are substituted and no synthesis, file write or
log line happens for the omitted language). -/
theorem c3_custom_skips_unsupplied_language (synth : Synth)
    (g : HealthEquityAudioGenerator) (sp tg : Option (List String)) (tr : Trace) :
    ((generate_custom_audio synth g none tg tr).1.lookup "spanish" = some []
      ∧ (truthy tg = true →
          generate_custom_audio synth g none tg tr
            = ([("spanish", []), ("tagalog", (generate_tagalog_audio synth g tg tr).1)],
               g, (generate_tagalog_audio synth g tg tr).2.2))
      ∧ (truthy tg = false →
          generate_custom_audio synth g none tg tr
            = ([("spanish", []), ("tagalog", [])], g, tr)))
    ∧ ((generate_custom_audio synth g sp none tr).1.lookup "tagalog" = some []
      ∧ (truthy sp = true →
          generate_custom_audio synth g sp none tr
            = ([("spanish", (generate_spanish_audio synth g sp tr).1), ("tagalog", [])],
               g, (generate_spanish_audio synth g sp tr).2.2))
      ∧ (truthy sp = false →
          generate_custom_audio synth g sp none tr
            = ([("spanish", []), ("tagalog", [])], g, tr))) := by
  have hnone : truthy none = false := rfl
  constructor
  · refine ⟨?_, fun htg => ?_, fun htg => ?_⟩
    · by_cases htg : truthy tg <;>
        simp [generate_custom_audio, hnone, htg, List.lookup]
    · simp [generate_custom_audio, hnone, htg, generate_tagalog_snd_fst]
    · simp [generate_custom_audio, hnone, htg]
  · refine ⟨?_, fun hsp => ?_, fun hsp => ?_⟩
    · by_cases hsp : truthy sp <;>
        simp [generate_custom_audio, hnone, hsp, List.lookup]
    · simp [generate_custom_audio, hnone, hsp, generate_spanish_snd_fst]
    · simp [generate_custom_audio, hnone, hsp]

/-- C3 witness: with both lists omitted nothing at all happens. -/
theorem c3_witness :
    truthy none = false
    ∧ generate_custom_audio (fun _ _ _ => true) ⟨"out", 0, [], []⟩ none none
        ⟨[], [], []⟩
      = ([("spanish", []), ("tagalog", [])], ⟨"out", 0, [], []⟩, ⟨[], [], []⟩) :=
  ⟨by decide,
   (c3_custom_skips_unsupplied_language (fun _ _ _ => true) ⟨"out", 0, [], []⟩
      none none ⟨[], [], []⟩).1.2.2 (by decide)⟩

/-- C4: `__init__` creates the output directory when absent, succeeds without
change when it already exists (a second initialization is a no-op on the
directories), and when the TTS model cannot be acquired or the directory
cannot be created the constructor raises; `main` catches the error and exits
with code 1. -/
theorem c4_init_idempotent_and_failures_fatal (env : Env) (out : String)
    (synth : Synth) (languages : List String) (sp tg : Option (List String))
    (tr : Trace) :
    (out ∈ env.dirs → env.ttsOk = true →
      init_generator env out
        = .ok (⟨out, 0, defaultSpanishQuestions, defaultTagalogQuestions⟩, env.dirs))
    ∧ (out ∉ env.dirs → env.canCreateDir = true → env.ttsOk = true →
      init_generator env out
        = .ok (⟨out, 0, defaultSpanishQuestions, defaultTagalogQuestions⟩,
               env.dirs ++ [out]))
    ∧ (env.ttsOk = true → (out ∈ env.dirs ∨ env.canCreateDir = true) →
      ∃ p : HealthEquityAudioGenerator × List String,
        init_generator env out = .ok p
        ∧ init_generator ⟨env.canCreateDir, env.ttsOk, p.2⟩ out = .ok p)
    ∧ (env.ttsOk = false → (out ∈ env.dirs ∨ env.canCreateDir = true) →
      init_generator env out = .error .ttsLoadFailed)
    ∧ (out ∉ env.dirs → env.canCreateDir = false →
      init_generator env out = .error .mkdirFailed)
    ∧ (∀ e, init_generator env out = .error e →
      (main_run env synth out languages sp tg tr).1 = 1) := by
  refine ⟨fun h1 h2 => ?_, fun h1 h2 h3 => ?_, fun h1 h2 => ?_,
    fun h1 h2 => ?_, fun h1 h2 => ?_, fun e h => ?_⟩
  · simp [init_generator, mkdirExistOk, h1, h2]
  · simp [init_generator, mkdirExistOk, h1, h2, h3]
  · by_cases hm : out ∈ env.dirs
    · refine ⟨(⟨out, 0, defaultSpanishQuestions, defaultTagalogQuestions⟩, env.dirs),
        ?_, ?_⟩ <;> simp [init_generator, mkdirExistOk, hm, h1]
    · have hc : env.canCreateDir = true := h2.resolve_left hm
      refine ⟨(⟨out, 0, defaultSpanishQuestions, defaultTagalogQuestions⟩,
        env.dirs ++ [out]), ?_, ?_⟩
      · simp [init_generator, mkdirExistOk, hm, hc, h1]
      · simp [init_generator, mkdirExistOk, h1, List.mem_append]
  · by_cases hm : out ∈ env.dirs
    · simp [init_generator, mkdirExistOk, hm, h1]
    · have hc : env.canCreateDir = true := h2.resolve_left hm
      simp [init_generator, mkdirExistOk, hm, hc, h1]
  · simp [init_generator, mkdirExistOk, h1, h2]
  · simp [main_run, h]

/-- C4 witness: a loaded directory but a failing TTS model; initialization
reports the error and the run exits 1. -/
theorem c4_witness :
    init_generator ⟨true, false, ["out"]⟩ "out" = .error .ttsLoadFailed
    ∧ (main_run ⟨true, false, ["out"]⟩ (fun _ _ _ => true) "out"
        ["spanish", "tagalog"] none none ⟨[], [], []⟩).1 = 1 :=
  ⟨(c4_init_idempotent_and_failures_fatal ⟨true, false, ["out"]⟩ "out"
      (fun _ _ _ => true) ["spanish", "tagalog"] none none ⟨[], [], []⟩).2.2.2.1
      rfl (Or.inl (by decide)),
   (c4_init_idempotent_and_failures_fatal ⟨true, false, ["out"]⟩ "out"
      (fun _ _ _ => true) ["spanish", "tagalog"] none none ⟨[], [], []⟩).2.2.2.2.2
      .ttsLoadFailed
      ((c4_init_idempotent_and_failures_fatal ⟨true, false, ["out"]⟩ "out"
        (fun _ _ _ => true) ["spanish", "tagalog"] none none ⟨[], [], []⟩).2.2.2.1
        rfl (Or.inl (by decide)))⟩

theorem mem_successPaths_shape {synth : Synth} {dir lang speaker : String}
    {qs : List String} {i : Nat} {p : String}
    (hp : p ∈ successPaths synth dir lang speaker qs i) :
    ∃ j, p = audioPath dir lang (i + j) := by
  obtain ⟨j, _, hj⟩ := mem_attemptedPaths.mp
    ((successPaths_sublist synth dir lang speaker qs i).subset hp)
  exact ⟨j, hj⟩

theorem generateLoop_files_mem {synth : Synth} {dir lang speaker label : String}
    {qs : List String} {i : Nat} {tr : Trace} {p : String}
    (hp : p ∈ (generateLoop synth dir lang speaker label qs i tr).2.files) :
    p ∈ tr.files ∨ ∃ j, p = audioPath dir lang (i + j) := by
  rw [generateLoop_files] at hp
  rcases mem_writeAll.mp hp with h | h
  · exact Or.inl h
  · exact Or.inr (mem_successPaths_shape h)

theorem generateLoop_calls_mem {synth : Synth} {dir lang speaker label : String}
    {qs : List String} {i : Nat} {tr : Trace} {x : SynthCall}
    (hx : x ∈ (generateLoop synth dir lang speaker label qs i tr).2.calls) :
    x ∈ tr.calls ∨ ∃ j, x.file_path = audioPath dir lang (i + j) := by
  rw [generateLoop_calls] at hx
  rcases List.mem_append.mp hx with h | h
  · exact Or.inl h
  · obtain ⟨j, _, rfl⟩ := mem_loopCalls h
    exact Or.inr ⟨j, rfl⟩

theorem generate_spanish_files_mem {synth : Synth} {g : HealthEquityAudioGenerator}
    {c : Option (List String)} {tr : Trace} {p : String}
    (hp : p ∈ (generate_spanish_audio synth g c tr).2.2.files) :
    p ∈ tr.files ∨ ∃ j, p = audioPath g.output_dir "spanish" (1 + j) :=
  generateLoop_files_mem hp

theorem generate_tagalog_files_mem {synth : Synth} {g : HealthEquityAudioGenerator}
    {c : Option (List String)} {tr : Trace} {p : String}
    (hp : p ∈ (generate_tagalog_audio synth g c tr).2.2.files) :
    p ∈ tr.files ∨ ∃ j, p = audioPath g.output_dir "tagalog" (1 + j) :=
  generateLoop_files_mem hp

theorem generate_spanish_calls_mem {synth : Synth} {g : HealthEquityAudioGenerator}
    {c : Option (List String)} {tr : Trace} {x : SynthCall}
    (hx : x ∈ (generate_spanish_audio synth g c tr).2.2.calls) :
    x ∈ tr.calls ∨ ∃ j, x.file_path = audioPath g.output_dir "spanish" (1 + j) :=
  generateLoop_calls_mem hx

theorem generate_tagalog_calls_mem {synth : Synth} {g : HealthEquityAudioGenerator}
    {c : Option (List String)} {tr : Trace} {x : SynthCall}
    (hx : x ∈ (generate_tagalog_audio synth g c tr).2.2.calls) :
    x ∈ tr.calls ∨ ∃ j, x.file_path = audioPath g.output_dir "tagalog" (1 + j) :=
  generateLoop_calls_mem hx

theorem generate_custom_files_mem {synth : Synth} {g : HealthEquityAudioGenerator}
    {sp tg : Option (List String)} {tr : Trace} {p : String}
    (hp : p ∈ (generate_custom_audio synth g sp tg tr).2.2.files) :
    p ∈ tr.files
    ∨ (truthy sp = true ∧ ∃ j, p = audioPath g.output_dir "spanish" (1 + j))
    ∨ (truthy tg = true ∧ ∃ j, p = audioPath g.output_dir "tagalog" (1 + j)) := by
  by_cases hsp : truthy sp <;> by_cases htg : truthy tg
  · simp only [generate_custom_audio, hsp, htg, if_true,
      generate_spanish_snd_fst] at hp
    rcases generate_tagalog_files_mem hp with h | h
    · rcases generate_spanish_files_mem h with h1 | h1
      · exact Or.inl h1
      · exact Or.inr (Or.inl ⟨hsp, h1⟩)
    · exact Or.inr (Or.inr ⟨htg, h⟩)
  · simp only [generate_custom_audio, hsp, htg, if_true, if_false,
      Bool.false_eq_true] at hp
    rcases generate_spanish_files_mem hp with h | h
    · exact Or.inl h
    · exact Or.inr (Or.inl ⟨hsp, h⟩)
  · simp only [generate_custom_audio, hsp, htg, if_true, if_false,
      Bool.false_eq_true] at hp
    rcases generate_tagalog_files_mem hp with h | h
    · exact Or.inl h
    · exact Or.inr (Or.inr ⟨htg, h⟩)
  · simp only [generate_custom_audio, hsp, htg, if_false,
      Bool.false_eq_true] at hp
    exact Or.inl hp

theorem generate_custom_calls_mem {synth : Synth} {g : HealthEquityAudioGenerator}
    {sp tg : Option (List String)} {tr : Trace} {x : SynthCall}
    (hx : x ∈ (generate_custom_audio synth g sp tg tr).2.2.calls) :
    x ∈ tr.calls
    ∨ (truthy sp = true ∧ ∃ j, x.file_path = audioPath g.output_dir "spanish" (1 + j))
    ∨ (truthy tg = true ∧ ∃ j, x.file_path = audioPath g.output_dir "tagalog" (1 + j)) := by
  by_cases hsp : truthy sp <;> by_cases htg : truthy tg
  · simp only [generate_custom_audio, hsp, htg, if_true,
      generate_spanish_snd_fst] at hx
    rcases generate_tagalog_calls_mem hx with h | h
    · rcases generate_spanish_calls_mem h with h1 | h1
      · exact Or.inl h1
      · exact Or.inr (Or.inl ⟨hsp, h1⟩)
    · exact Or.inr (Or.inr ⟨htg, h⟩)
  · simp only [generate_custom_audio, hsp, htg, if_true, if_false,
      Bool.false_eq_true] at hx
    rcases generate_spanish_calls_mem hx with h | h
    · exact Or.inl h
    · exact Or.inr (Or.inl ⟨hsp, h⟩)
  · simp only [generate_custom_audio, hsp, htg, if_true, if_false,
      Bool.false_eq_true] at hx
    rcases generate_tagalog_calls_mem hx with h | h
    · exact Or.inl h
    · exact Or.inr (Or.inr ⟨htg, h⟩)
  · simp only [generate_custom_audio, hsp, htg, if_false,
      Bool.false_eq_true] at hx
    exact Or.inl hx

/-- C7: whatever texts are in effect (default or custom), `main` only runs the
generate operations of the languages selected by the `--languages` filter:
every file present afterwards was either there before or is a
`{lang}_q{NNN}.wav` path of a selected language, and likewise every synthesis
call issued targets a selected language's path. -/
theorem c7_language_filter_restricts_output (synth : Synth)
    (g : HealthEquityAudioGenerator) (languages : List String)
    (sp tg : Option (List String)) (tr : Trace) :
    (∀ p ∈ (main_generate synth g languages sp tg tr).2.2.files,
      p ∈ tr.files
      ∨ ∃ lang, lang ∈ languages ∧ (lang = "spanish" ∨ lang = "tagalog")
          ∧ ∃ j, p = audioPath g.output_dir lang (1 + j))
    ∧ (∀ x ∈ (main_generate synth g languages sp tg tr).2.2.calls,
      x ∈ tr.calls
      ∨ ∃ lang, lang ∈ languages ∧ (lang = "spanish" ∨ lang = "tagalog")
          ∧ ∃ j, x.file_path = audioPath g.output_dir lang (1 + j)) := by
  by_cases hc : (truthy sp || truthy tg) = true
  · constructor
    · intro p hp
      simp only [main_generate, hc, if_true] at hp
      rcases generate_custom_files_mem hp with h | ⟨ht, j, hj⟩ | ⟨ht, j, hj⟩
      · exact Or.inl h
      · by_cases hs : "spanish" ∈ languages
        · exact Or.inr ⟨"spanish", hs, Or.inl rfl, j, hj⟩
        · rw [if_neg hs] at ht
          exact absurd ht (by decide)
      · by_cases hs : "tagalog" ∈ languages
        · exact Or.inr ⟨"tagalog", hs, Or.inr rfl, j, hj⟩
        · rw [if_neg hs] at ht
          exact absurd ht (by decide)
    · intro x hx
      simp only [main_generate, hc, if_true] at hx
      rcases generate_custom_calls_mem hx with h | ⟨ht, j, hj⟩ | ⟨ht, j, hj⟩
      · exact Or.inl h
      · by_cases hs : "spanish" ∈ languages
        · exact Or.inr ⟨"spanish", hs, Or.inl rfl, j, hj⟩
        · rw [if_neg hs] at ht
          exact absurd ht (by decide)
      · by_cases hs : "tagalog" ∈ languages
        · exact Or.inr ⟨"tagalog", hs, Or.inr rfl, j, hj⟩
        · rw [if_neg hs] at ht
          exact absurd ht (by decide)
  · by_cases hs : "spanish" ∈ languages <;> by_cases ht : "tagalog" ∈ languages <;>
      constructor
    · intro p hp
      simp only [main_generate, hc, if_false, hs, ht, if_true,
        generate_spanish_snd_fst] at hp
      rcases generate_tagalog_files_mem hp with h | h
      · rcases generate_spanish_files_mem h with h1 | ⟨j, hj⟩
        · exact Or.inl h1
        · exact Or.inr ⟨"spanish", hs, Or.inl rfl, j, hj⟩
      · obtain ⟨j, hj⟩ := h
        exact Or.inr ⟨"tagalog", ht, Or.inr rfl, j, hj⟩
    · intro x hx
      simp only [main_generate, hc, if_false, hs, ht, if_true,
        generate_spanish_snd_fst] at hx
      rcases generate_tagalog_calls_mem hx with h | h
      · rcases generate_spanish_calls_mem h with h1 | ⟨j, hj⟩
        · exact Or.inl h1
        · exact Or.inr ⟨"spanish", hs, Or.inl rfl, j, hj⟩
      · obtain ⟨j, hj⟩ := h
        exact Or.inr ⟨"tagalog", ht, Or.inr rfl, j, hj⟩
    · intro p hp
      simp only [main_generate, hc, if_false, hs, ht, if_true,
        generate_spanish_snd_fst] at hp
      rcases generate_spanish_files_mem hp with h | ⟨j, hj⟩
      · exact Or.inl h
      · exact Or.inr ⟨"spanish", hs, Or.inl rfl, j, hj⟩
    · intro x hx
      simp only [main_generate, hc, if_false, hs, ht, if_true,
        generate_spanish_snd_fst] at hx
      rcases generate_spanish_calls_mem hx with h | ⟨j, hj⟩
      · exact Or.inl h
      · exact Or.inr ⟨"spanish", hs, Or.inl rfl, j, hj⟩
    · intro p hp
      simp only [main_generate, hc, if_false, hs, ht, if_true] at hp
      rcases generate_tagalog_files_mem hp with h | ⟨j, hj⟩
      · exact Or.inl h
      · exact Or.inr ⟨"tagalog", ht, Or.inr rfl, j, hj⟩
    · intro x hx
      simp only [main_generate, hc, if_false, hs, ht, if_true] at hx
      rcases generate_tagalog_calls_mem hx with h | ⟨j, hj⟩
      · exact Or.inl h
      · exact Or.inr ⟨"tagalog", ht, Or.inr rfl, j, hj⟩
    · intro p hp
      simp only [main_generate, hc, if_false, hs, ht] at hp
      exact Or.inl hp
    · intro x hx
      simp only [main_generate, hc, if_false, hs, ht] at hx
      exact Or.inl hx

/-- C7 witness: with only Tagalog selected and a custom Tagalog text, the one
file written is a Tagalog path. -/
theorem c7_witness :
    ("out/tagalog_q001.wav"
        ∈ (main_generate (fun _ _ _ => true) ⟨"out", 0, [], []⟩ ["tagalog"]
            none (some ["x"]) ⟨[], [], []⟩).2.2.files)
    ∧ ("out/tagalog_q001.wav" ∈ (⟨[], [], []⟩ : Trace).files
      ∨ ∃ lang, lang ∈ ["tagalog"] ∧ (lang = "spanish" ∨ lang = "tagalog")
          ∧ ∃ j, "out/tagalog_q001.wav" = audioPath "out" lang (1 + j)) :=
  ⟨by decide,
   (c7_language_filter_restricts_output (fun _ _ _ => true) ⟨"out", 0, [], []⟩
      ["tagalog"] none (some ["x"]) ⟨[], [], []⟩).1
      "out/tagalog_q001.wav" (by decide)⟩

end AudioGen
